import Mathlib

/-!
Verification model of `bot.py` from the `driftywinds/birthday-bot` repository.

The Python source is shallowly embedded: strings become `List Char` (with
`String` kept where only equality on literals matters), Python exceptions
become `Option`/an explicit abort flag, `datetime.date` becomes a `Date`
record of integers, naive `datetime` values become minutes since the epoch
1970-01-01T00:00 (every datetime the program builds is minute-aligned), and a
timezone becomes the function taking a local wall-clock instant (in minutes)
to its UTC offset (in minutes), so that `pytz.localize(...).astimezone(UTC)`
is `local - offset local`.  CPython bounds `datetime` years to 1..9999; the
model idealises dates as unbounded integers.
-/

namespace BirthdayBot

/-! ## Python-style string primitives -/

/-- Whitespace accepted (and stripped) by Python `int(str)`; ASCII subset. -/
def isPySpace (c : Char) : Bool :=
  c = ' ' || c = '\t' || c = '\n' || c = '\r' || c = '\x0b' || c = '\x0c'

/-- Numeric value of a decimal digit character. -/
def digitVal (c : Char) : Nat := c.toNat - 48

/-- Continue reading a decimal literal in Python `int` syntax: digits with
single underscores allowed between digits. -/
def digitsValAux (acc : Nat) : List Char → Option Nat
  | [] => some acc
  | c :: rest =>
    if c.isDigit then digitsValAux (acc * 10 + digitVal c) rest
    else if c = '_' then
      match rest with
      | [] => none
      | d :: rest2 => if d.isDigit then digitsValAux (acc * 10 + digitVal d) rest2 else none
    else none

/-- Python `int(str)`: optional surrounding whitespace, optional sign, then a
nonempty run of digits (underscores permitted between digits).  `none` models
the `ValueError` raised on any other input. -/
def parsePythonInt (l : List Char) : Option Int :=
  let t := ((l.dropWhile isPySpace).reverse.dropWhile isPySpace).reverse
  match t with
  | '-' :: d :: rest =>
    if d.isDigit then (digitsValAux (digitVal d) rest).map (fun n => -(n : Int)) else none
  | '+' :: d :: rest =>
    if d.isDigit then (digitsValAux (digitVal d) rest).map (fun n => (n : Int)) else none
  | d :: rest =>
    if d.isDigit then (digitsValAux (digitVal d) rest).map (fun n => (n : Int)) else none
  | [] => none

/-- Consume one or two leading decimal digits (greedily), as the `%H`/`%M`
directives of `datetime.strptime` do. -/
def takeDigits12 : List Char → Option (Nat × List Char)
  | [] => none
  | c :: rest =>
    if c.isDigit then
      match rest with
      | d :: rest2 =>
        if d.isDigit then some (digitVal c * 10 + digitVal d, rest2)
        else some (digitVal c, rest)
      | [] => some (digitVal c, [])
    else none

/-- `datetime.strptime(value, '%H:%M')`: one or two digits for the hour
(0..23), a literal colon, one or two digits for the minute (0..59), nothing
else.  `none` models the `ValueError` on failure. -/
def parseHHMM (l : List Char) : Option (Nat × Nat) :=
  match takeDigits12 l with
  | some (h, ':' :: rest) =>
    match takeDigits12 rest with
    | some (m, []) => if h ≤ 23 && m ≤ 59 then some (h, m) else none
    | _ => none
  | _ => none

/-- Python `str.split(sep)` for a one-character separator. -/
def splitOnChar (c : Char) : List Char → List (List Char)
  | [] => [[]]
  | x :: xs =>
    if x = c then [] :: splitOnChar c xs
    else
      match splitOnChar c xs with
      | [] => [[x]]
      | p :: ps => (x :: p) :: ps

/-- Python `str.split(sep, 1)` (when the separator occurs): the part before
the first separator and everything after it.  `none` when the separator is
absent, modelling the unpacking `ValueError` at the call site. -/
def splitFirst (c : Char) : List Char → Option (List Char × List Char)
  | [] => none
  | x :: xs =>
    if x = c then some ([], xs)
    else (splitFirst c xs).map (fun p => (x :: p.1, p.2))

/-- Rejoin the pieces produced by `splitOnChar`. -/
def intercalateChar (c : Char) : List (List Char) → List Char
  | [] => []
  | [p] => p
  | p :: ps => p ++ c :: intercalateChar c ps

/-! ## Calendar model (`datetime.date`) -/

/-- Gregorian leap-year rule, as implemented by `datetime`. -/
def isLeapYear (y : Int) : Bool :=
  decide ((Int.emod y 4 = 0 ∧ ¬ Int.emod y 100 = 0) ∨ Int.emod y 400 = 0)

/-- Length of month `m` of year `y` (arbitrary on out-of-range months; all
uses also bound the month). -/
def daysInMonth (y m : Int) : Int :=
  if m = 2 then (if isLeapYear y then 29 else 28)
  else if m = 4 ∨ m = 6 ∨ m = 9 ∨ m = 11 then 30
  else 31

/-- Whether `datetime(y, m, d)` succeeds (year bounds idealised away). -/
def isValidYMD (y m d : Int) : Bool :=
  decide (1 ≤ m ∧ m ≤ 12 ∧ 1 ≤ d ∧ d ≤ daysInMonth y m)

/-- A calendar date, like `datetime.date`. -/
structure Date where
  year : Int
  month : Int
  day : Int
deriving DecidableEq

/-- `datetime.date` comparison: lexicographic on (year, month, day). -/
def dateLt (a b : Date) : Bool :=
  decide (a.year < b.year ∨ (a.year = b.year ∧
    (a.month < b.month ∨ (a.month = b.month ∧ a.day < b.day))))

/-- Day number of a Gregorian date, with day 0 = 1970-01-01 (the civil
day-count algorithm); used to place dates on the minute line. -/
def daysFromCivil (y m d : Int) : Int :=
  let y2 := if m ≤ 2 then y - 1 else y
  let era := Int.ediv y2 400
  let yoe := y2 - era * 400
  let mp := if 2 < m then m - 3 else m + 9
  let doy := Int.ediv (153 * mp + 2) 5 + d - 1
  let doe := yoe * 365 + Int.ediv yoe 4 - Int.ediv yoe 100 + doy
  era * 146097 + doe - 719468

lemma daysFromCivil_epoch : daysFromCivil 1970 1 1 = 0 := by decide

lemma daysFromCivil_example : daysFromCivil 2025 3 15 = daysFromCivil 2025 3 14 + 1 := by decide

/-! ## Reminder rules (`validate_reminder`, `add_reminder`) -/

/-- A stored reminder: the `{'type': ..., 'value': ...}` dict built by
`add_reminder`. -/
structure Reminder where
  type : String
  value : List Char
deriving DecidableEq

/-- `BirthdayBot.validate_reminder` (bot.py 322-339): `true` when the checks
pass, `false` when they raise `ValueError`.  The count kinds only require
`int(value)` to succeed; `time_on_day` requires `strptime(value, '%H:%M')`;
`time_before` requires exactly three colon-separated parts, an integer first
part, and `strptime` of the rejoined last two. -/
def validate_reminder (r : Reminder) : Bool :=
  if r.type = "minutes_before" ∨ r.type = "hours_before" ∨ r.type = "days_before" then
    (parsePythonInt r.value).isSome
  else if r.type = "time_on_day" then
    (parseHHMM r.value).isSome
  else if r.type = "time_before" then
    match splitOnChar ':' r.value with
    | [a, b, c] => (parsePythonInt a).isSome && (parseHHMM (b ++ ':' :: c)).isSome
    | _ => false
  else false

/-- `BirthdayBot.add_reminder` (bot.py 290-320), restricted to its effect on
the stored reminder list: append exactly when validation succeeds. -/
def add_reminder (reminders : List Reminder) (r : Reminder) : List Reminder :=
  if validate_reminder r then reminders ++ [r] else reminders

/-! ## Next occurrence (`get_next_birthday_date`) -/

/-- `month, day = map(int, birthday_str.split('-'))` from bot.py 482: exactly
two dash-separated parts, each a Python integer. -/
def parse_birthday (l : List Char) : Option (Int × Int) :=
  match splitOnChar '-' l with
  | [a, b] =>
    match parsePythonInt a, parsePythonInt b with
    | some m, some d => some (m, d)
    | _, _ => none
  | _ => none

/-- `BirthdayBot.get_next_birthday_date` (bot.py 479-490).  The two
`datetime.now()` reads are modelled by the single `today` argument.  `none`
models a raised exception: a malformed birthday string, or a `ValueError`
from `datetime(year, month, day)` when the month/day does not exist in the
chosen year (e.g. 02-29 in a non-leap year). -/
def get_next_birthday_date (birthday_str : List Char) (today : Date) : Option Date :=
  match parse_birthday birthday_str with
  | none => none
  | some (m, d) =>
    if isValidYMD today.year m d then
      if dateLt ⟨today.year, m, d⟩ today then
        if isValidYMD (today.year + 1) m d then some ⟨today.year + 1, m, d⟩ else none
      else some ⟨today.year, m, d⟩
    else none

/-! ## Reminder instant (`calculate_reminder_time`) -/

/-- The naive local `reminder_datetime` computed by
`BirthdayBot.calculate_reminder_time` (bot.py 499-514), in minutes since the
epoch in local wall-clock terms; `birthday_date` is the occurrence day
number.  `none` models the exceptions: `int`/`strptime` failures, a missing
colon in a `time_before` value, and the `UnboundLocalError` on an unknown
type. -/
def local_reminder_minutes (birthday_date : Int) (r : Reminder) : Option Int :=
  if r.type = "minutes_before" then
    (parsePythonInt r.value).map (fun n => birthday_date * 1440 - n)
  else if r.type = "hours_before" then
    (parsePythonInt r.value).map (fun n => birthday_date * 1440 - 60 * n)
  else if r.type = "days_before" then
    (parsePythonInt r.value).map (fun n => (birthday_date - n) * 1440 + 540)
  else if r.type = "time_on_day" then
    (parseHHMM r.value).map (fun hm => birthday_date * 1440 + (60 * (hm.1 : Int) + hm.2))
  else if r.type = "time_before" then
    match splitFirst ':' r.value with
    | some (ds, ts) =>
      match parsePythonInt ds, parseHHMM ts with
      | some n, some hm => some ((birthday_date - n) * 1440 + (60 * (hm.1 : Int) + hm.2))
      | _, _ => none
    | none => none
  else none

/-- `BirthdayBot.calculate_reminder_time` (bot.py 492-518): build the naive
local datetime, then `tz.localize(...).astimezone(pytz.UTC)`, i.e. subtract
the timezone's UTC offset at that local wall time. -/
def calculate_reminder_time (birthday_date : Int) (r : Reminder) (tzOffset : Int → Int) :
    Option Int :=
  (local_reminder_minutes birthday_date r).map (fun lm => lm - tzOffset lm)

/-- The five rule kinds of the specification, with their parsed payloads. -/
inductive SpecRule where
  | minutesBefore (n : Int)
  | hoursBefore (n : Int)
  | daysBefore (n : Int)
  | timeOnDay (h m : Nat)
  | timeBefore (d : Int) (h m : Nat)
deriving DecidableEq

/-- Interpret a stored reminder as a `SpecRule` (same parsing as the source). -/
def parseRule (r : Reminder) : Option SpecRule :=
  if r.type = "minutes_before" then
    (parsePythonInt r.value).map SpecRule.minutesBefore
  else if r.type = "hours_before" then
    (parsePythonInt r.value).map SpecRule.hoursBefore
  else if r.type = "days_before" then
    (parsePythonInt r.value).map SpecRule.daysBefore
  else if r.type = "time_on_day" then
    (parseHHMM r.value).map (fun hm => SpecRule.timeOnDay hm.1 hm.2)
  else if r.type = "time_before" then
    match splitFirst ':' r.value with
    | some (ds, ts) =>
      match parsePythonInt ds, parseHHMM ts with
      | some n, some hm => some (SpecRule.timeBefore n hm.1 hm.2)
      | _, _ => none
    | none => none
  else none

/-- The specification's local wall time for each rule kind (spec section 4.1):
MinutesBefore and HoursBefore count back from local midnight at the start of
the occurrence date; DaysBefore is 09:00 local on the occurrence date minus
that many days; TimeOnDay is hh:mm local on the occurrence date; TimeBefore
is hh:mm local on the occurrence date minus that many days. -/
def specLocalMinutes (occ : Int) : SpecRule → Int
  | .minutesBefore n => occ * 1440 - n
  | .hoursBefore n => occ * 1440 - 60 * n
  | .daysBefore n => (occ - n) * 1440 + 540
  | .timeOnDay h m => occ * 1440 + (60 * (h : Int) + m)
  | .timeBefore d h m => (occ - d) * 1440 + (60 * (h : Int) + m)

/-- The specification's `ReminderInstant`: the local wall time of the rule,
interpreted in the subscriber's timezone and converted to UTC. -/
def reminderInstantSpec (occ : Int) (rule : SpecRule) (tzOffset : Int → Int) : Int :=
  specLocalMinutes occ rule - tzOffset (specLocalMinutes occ rule)

/-! ## Endpoint confirmation (`handle_callback`) -/

/-- Per-user confirmation state: `pending_endpoints.get(user_id)` together
with `user_data['apprise_endpoints']`. -/
structure ConfirmState where
  pending : Option String
  confirmed : List String
deriving DecidableEq

/-- The chat-relay endpoint `f"tgram:\x7bself.token\x7d/\x7b...chat.id\x7d"`
built at bot.py 449. -/
def telegramEndpoint (token chatId : String) : String :=
  "tgram://" ++ token ++ "/" ++ chatId

/-- The `confirm_endpoint_yes` branch of `BirthdayBot.handle_callback`
(bot.py 440-462).  With a pending endpoint: append it to the confirmed list
unconditionally, append the chat-relay endpoint only if absent, clear the
pending entry, and report `true`.  With no pending entry: leave the state
unchanged and report `false` ("No pending endpoint to confirm"). -/
def confirmYes (token chatId : String) (st : ConfirmState) : ConfirmState × Bool :=
  match st.pending with
  | some endpoint =>
    let c1 := st.confirmed ++ [endpoint]
    let tg := telegramEndpoint token chatId
    let c2 := if tg ∈ c1 then c1 else c1 ++ [tg]
    (⟨none, c2⟩, true)
  | none => (st, false)

/-- The `confirm_endpoint_no` branch of `BirthdayBot.handle_callback`
(bot.py 464-477): discard the pending endpoint if there is one (reporting
`true`), otherwise leave the state unchanged and report `false` ("No pending
endpoint to cancel"). -/
def confirmNo (st : ConfirmState) : ConfirmState × Bool :=
  match st.pending with
  | some _ => (⟨none, st.confirmed⟩, true)
  | none => (st, false)

/-! ## Dispatch (`send_notification`) -/

/-- `BirthdayBot.send_notification` (bot.py 520-539).  `notifyResult` stands
for the outcome of the opaque `apobj.notify(...)` call: `some b` for a normal
return of `b`, `none` for a raised exception (which the function catches and
logs).  The result pairs the returned success count with whether delivery
was attempted at all: an empty endpoint list returns 0 before the delivery
capability is ever constructed. -/
def send_notification (endpoints : List String) (notifyResult : Option Bool) : Nat × Bool :=
  if endpoints.isEmpty then (0, false)
  else
    match notifyResult with
    | some true => (endpoints.length, true)
    | some false => (0, true)
    | none => (0, true)

/-! ## Scheduler tick (`check_birthdays`) -/

/-- One subscriber record, as used by the tick: `user_data['birthdays']`
(ordered name/date pairs), `user_data['reminders']`, and the user's timezone
already resolved to its UTC-offset function. -/
structure UserData where
  birthdays : List (String × List Char)
  reminders : List Reminder
  timezone : Int → Int

/-- The firing test of bot.py 562-564:
`abs((current_time - reminder_time).total_seconds()) <= 60`, with `nowSec`
in seconds and the reminder instant in minutes. -/
def tickFires (nowSec rtMin : Int) : Bool :=
  decide ((nowSec - rtMin * 60).natAbs ≤ 60)

/-- The log entry for one (user, birthday, rule) unit of a tick: whether the
per-rule `try` body completed (`ok`) and whether the rule fired. -/
structure ProcessedUnit where
  uid : String
  name : String
  reminder : Reminder
  ok : Bool
  fired : Bool
deriving DecidableEq

/-- The body of the innermost loop of `check_birthdays` (bot.py 555-576): the
`try` around computing the reminder instant and dispatching.  A failure
inside (`calculate_reminder_time` raising) is caught, so it yields a log
entry with `ok := false` and the loop continues. -/
def processReminder (nowSec : Int) (uid name : String) (occ : Int) (tz : Int → Int)
    (r : Reminder) : ProcessedUnit :=
  let res := calculate_reminder_time occ r tz
  ⟨uid, name, r, res.isSome,
    match res with
    | some rt => tickFires nowSec rt
    | none => false⟩

/-- The per-birthday loop of `check_birthdays` (bot.py 552-576).
`get_next_birthday_date` is called outside the per-rule `try`, so when it
raises (`none`) the exception propagates: the returned flag is `true` and the
remaining birthdays of this user are not processed. -/
def processUserBirthdays (today : Date) (nowSec : Int) (uid : String) (tz : Int → Int)
    (reminders : List Reminder) :
    List (String × List Char) → List ProcessedUnit × Bool
  | [] => ([], false)
  | (name, bstr) :: rest =>
    match get_next_birthday_date bstr today with
    | some nb =>
      let units := reminders.map
        (processReminder nowSec uid name (daysFromCivil nb.year nb.month nb.day) tz)
      let r := processUserBirthdays today nowSec uid tz reminders rest
      (units ++ r.1, r.2)
    | none => ([], true)

/-- `BirthdayBot.check_birthdays` (bot.py 541-576), as the log of processed
units plus an abort flag.  Users with no birthdays or no reminders are
skipped; an uncaught exception while computing an occurrence date aborts the
whole tick (the remaining users are not processed), which
`run_birthday_checker` then logs. -/
def check_birthdays (today : Date) (nowSec : Int) :
    List (String × UserData) → List ProcessedUnit × Bool
  | [] => ([], false)
  | (uid, ud) :: rest =>
    if ud.birthdays.isEmpty || ud.reminders.isEmpty then
      check_birthdays today nowSec rest
    else
      let r := processUserBirthdays today nowSec uid ud.timezone ud.reminders ud.birthdays
      if r.2 then (r.1, true)
      else
        let r2 := check_birthdays today nowSec rest
        (r.1 ++ r2.1, r2.2)

/-- Occurrence-date computation succeeds for every birthday the tick will
reach (users skipped for having no birthdays or no reminders excluded). -/
def occurrencesOk (today : Date) (users : List (String × UserData)) : Bool :=
  users.all fun p =>
    p.2.birthdays.isEmpty || p.2.reminders.isEmpty ||
      p.2.birthdays.all fun nb => (get_next_birthday_date nb.2 today).isSome

/-! ## Splitting lemmas -/

lemma splitOnChar_ne_nil (c : Char) (l : List Char) : splitOnChar c l ≠ [] := by
  cases l with
  | nil => simp [splitOnChar]
  | cons x xs =>
    unfold splitOnChar
    by_cases hx : x = c
    · simp [hx]
    · simp only [hx, if_false]
      cases splitOnChar c xs <;> simp

lemma intercalateChar_splitOnChar (c : Char) (l : List Char) :
    intercalateChar c (splitOnChar c l) = l := by
  induction l with
  | nil => rfl
  | cons x xs ih =>
    unfold splitOnChar
    by_cases hx : x = c
    · subst hx
      simp only [if_pos rfl]
      have hne := splitOnChar_ne_nil x xs
      cases hs : splitOnChar x xs with
      | nil => exact absurd hs hne
      | cons p ps =>
        rw [hs] at ih
        cases ps with
        | nil =>
          simp [intercalateChar] at ih ⊢
          exact ih
        | cons q qs => simpa [intercalateChar] using ih
    · simp only [hx, if_false]
      have hne := splitOnChar_ne_nil c xs
      cases hs : splitOnChar c xs with
      | nil => exact absurd hs hne
      | cons p ps =>
        rw [hs] at ih
        cases ps with
        | nil => simpa [intercalateChar] using ih
        | cons q qs => simpa [intercalateChar] using ih

lemma splitFirst_eq (c : Char) (l : List Char) :
    splitFirst c l =
      match splitOnChar c l with
      | [] => none
      | [_] => none
      | p :: ps => some (p, intercalateChar c ps) := by
  induction l with
  | nil => rfl
  | cons x xs ih =>
    unfold splitFirst splitOnChar
    by_cases hx : x = c
    · subst hx
      simp only [if_pos rfl]
      have hne := splitOnChar_ne_nil x xs
      cases hs : splitOnChar x xs with
      | nil => exact absurd hs hne
      | cons p ps =>
        have hj := intercalateChar_splitOnChar x xs
        rw [hs] at hj
        cases ps with
        | nil =>
          simp [intercalateChar] at hj
          simp [intercalateChar, hj]
        | cons q qs =>
          simp only [intercalateChar] at hj
          simp [intercalateChar, hj]
    · simp only [hx, if_false]
      rw [ih]
      have hne := splitOnChar_ne_nil c xs
      cases hs : splitOnChar c xs with
      | nil => exact absurd hs hne
      | cons p ps =>
        cases ps with
        | nil => simp
        | cons q qs => simp [Option.map]

/-- When a value splits into exactly three colon-separated parts (the shape
`validate_reminder` requires for `time_before`), splitting once at the first
colon yields the first part and the rejoined remainder. -/
lemma splitFirst_of_three (c : Char) (l a b d : List Char)
    (h : splitOnChar c l = [a, b, d]) :
    splitFirst c l = some (a, b ++ c :: d) := by
  rw [splitFirst_eq, h]
  simp [intercalateChar]

/-! ## Calendar lemmas -/

lemma daysInMonth_1900_le (y m : Int) : daysInMonth 1900 m ≤ daysInMonth y m := by
  unfold daysInMonth
  by_cases h2 : m = 2
  · have h1900 : isLeapYear 1900 = false := by decide
    simp only [h2, if_pos rfl, h1900, if_false]
    cases hy : isLeapYear y <;> simp
  · simp only [h2, if_false]
    exact le_refl _

/-- A month/day valid in 1900 (a non-leap year, the default year that
`strptime('%m-%d')` validates against in `add_birthday`) is valid in every
year. -/
lemma isValidYMD_of_1900 (y m d : Int) (h : isValidYMD 1900 m d = true) :
    isValidYMD y m d = true := by
  unfold isValidYMD at h ⊢
  rw [decide_eq_true_iff] at h ⊢
  exact ⟨h.1, h.2.1, h.2.2.1, le_trans h.2.2.2 (daysInMonth_1900_le y m)⟩

/-! ## Parsing bounds -/

lemma parseHHMM_bounds (l : List Char) (h m : Nat) (hp : parseHHMM l = some (h, m)) :
    h ≤ 23 ∧ m ≤ 59 := by
  unfold parseHHMM at hp
  split at hp
  · split at hp
    · split at hp
      · rename_i hb
        rw [Option.some.injEq, Prod.mk.injEq] at hp
        obtain ⟨rfl, rfl⟩ := hp
        simpa using hb
      · simp at hp
    · simp at hp
  · simp at hp

/-! ## Refinement lemmas for `calculate_reminder_time` -/

/-- The naive local datetime the source computes agrees, rule kind by rule
kind, with the specification's local wall time for the parsed rule. -/
lemma local_reminder_minutes_eq (occ : Int) (r : Reminder) :
    local_reminder_minutes occ r = (parseRule r).map (specLocalMinutes occ) := by
  unfold local_reminder_minutes parseRule
  by_cases h1 : r.type = "minutes_before"
  · simp only [h1, if_pos rfl, if_true]
    cases parsePythonInt r.value <;> simp [specLocalMinutes]
  · simp only [h1, if_false]
    by_cases h2 : r.type = "hours_before"
    · simp only [h2, if_pos rfl, if_true]
      cases parsePythonInt r.value <;> simp [specLocalMinutes]
    · simp only [h2, if_false]
      by_cases h3 : r.type = "days_before"
      · simp only [h3, if_pos rfl, if_true]
        cases parsePythonInt r.value <;> simp [specLocalMinutes]
      · simp only [h3, if_false]
        by_cases h4 : r.type = "time_on_day"
        · simp only [h4, if_pos rfl, if_true]
          cases parseHHMM r.value <;> simp [specLocalMinutes]
        · simp only [h4, if_false]
          by_cases h5 : r.type = "time_before"
          · simp only [h5, if_pos rfl, if_true]
            cases hsf : splitFirst ':' r.value with
            | none => simp
            | some p =>
              obtain ⟨ds, ts⟩ := p
              cases hd : parsePythonInt ds <;> cases hh : parseHHMM ts <;>
                simp [hd, hh, specLocalMinutes]
          · simp only [h5, if_false]
            simp

/-- A reminder that passes `validate_reminder` parses to a `SpecRule`: the
validation and the scheduler parse the same value the same way (for
`time_before`, splitting into exactly three parts and then splitting once at
the first colon agree). -/
lemma parseRule_isSome_of_validate (r : Reminder) (h : validate_reminder r = true) :
    (parseRule r).isSome = true := by
  unfold validate_reminder at h
  unfold parseRule
  by_cases h1 : r.type = "minutes_before" ∨ r.type = "hours_before" ∨ r.type = "days_before"
  · rw [if_pos h1] at h
    rcases h1 with h1 | h1 | h1 <;> simp only [h1] <;> simp_all
  · rw [if_neg h1] at h
    have e1 : ¬ r.type = "minutes_before" := fun hc => h1 (Or.inl hc)
    have e2 : ¬ r.type = "hours_before" := fun hc => h1 (Or.inr (Or.inl hc))
    have e3 : ¬ r.type = "days_before" := fun hc => h1 (Or.inr (Or.inr hc))
    simp only [e1, e2, e3, if_false]
    by_cases h4 : r.type = "time_on_day"
    · rw [if_pos h4] at h
      simp only [h4, if_pos rfl]
      simp_all
    · rw [if_neg h4] at h
      simp only [h4, if_false]
      by_cases h5 : r.type = "time_before"
      · rw [if_pos h5] at h
        simp only [h5, if_pos rfl]
        cases hs : splitOnChar ':' r.value with
        | nil => rw [hs] at h; simp at h
        | cons a ps =>
          rw [hs] at h
          cases ps with
          | nil => simp at h
          | cons b qs =>
            cases qs with
            | nil => simp at h
            | cons d rs =>
              cases rs with
              | nil =>
                rw [splitFirst_of_three ':' r.value a b d hs]
                rw [Bool.and_eq_true] at h
                obtain ⟨ha, hb⟩ := h
                obtain ⟨n, hn⟩ := Option.isSome_iff_exists.mp ha
                obtain ⟨hm, hmm⟩ := Option.isSome_iff_exists.mp hb
                simp [hn, hmm]
              | cons _ _ => simp at h
      · rw [if_neg h5] at h
        simp at h

/-! ## Scheduler lemmas -/

/-- When every birthday of the list yields an occurrence date, the
per-birthday loop never aborts and logs one unit per (birthday, rule) pair;
a per-unit `calculate_reminder_time` failure only marks that unit `ok :=
false`. -/
lemma processUserBirthdays_complete (today : Date) (nowSec : Int) (uid : String)
    (tz : Int → Int) (reminders : List Reminder) (bl : List (String × List Char))
    (h : ∀ nb ∈ bl, (get_next_birthday_date nb.2 today).isSome = true) :
    (processUserBirthdays today nowSec uid tz reminders bl).2 = false ∧
    ∀ nb ∈ bl, ∀ r ∈ reminders,
      ∃ u ∈ (processUserBirthdays today nowSec uid tz reminders bl).1,
        u.uid = uid ∧ u.name = nb.1 ∧ u.reminder = r := by
  induction bl with
  | nil => exact ⟨rfl, by simp⟩
  | cons hd rest ih =>
    obtain ⟨name, bstr⟩ := hd
    have hhd : (get_next_birthday_date bstr today).isSome = true :=
      h (name, bstr) (List.mem_cons_self _ _)
    obtain ⟨nb, hnb⟩ := Option.isSome_iff_exists.mp hhd
    have htail : ∀ nb2 ∈ rest, (get_next_birthday_date nb2.2 today).isSome = true :=
      fun nb2 hm => h nb2 (List.mem_cons_of_mem _ hm)
    obtain ⟨ih1, ih2⟩ := ih htail
    unfold processUserBirthdays
    rw [hnb]
    refine ⟨ih1, ?_⟩
    intro nb2 hm r hr
    rcases List.mem_cons.mp hm with heq | hm2
    · subst heq
      refine ⟨processReminder nowSec uid name (daysFromCivil nb.year nb.month nb.day) tz r,
        ?_, rfl, rfl, rfl⟩
      exact List.mem_append_left _ (List.mem_map_of_mem _ hr)
    · obtain ⟨u, hu, hprops⟩ := ih2 nb2 hm2 r hr
      exact ⟨u, List.mem_append_right _ hu, hprops⟩

/-! ## Claims -/

/-- C1: for every occurrence date, validated rule, and timezone,
`calculate_reminder_time` returns the UTC instant of the specification's
deterministic mapping: MinutesBefore/HoursBefore subtract from local midnight
at the start of the occurrence date, DaysBefore is 09:00 local on the
occurrence date minus n days, TimeOnDay is hh:mm local on the occurrence
date, TimeBefore is hh:mm local on the occurrence date minus d days, and the
local wall time is converted to UTC by the subscriber's timezone offset. -/
theorem reminder_instant_matches_spec (occ : Int) (tzOffset : Int → Int) (r : Reminder)
    (hval : validate_reminder r = true) :
    ∃ rule : SpecRule, parseRule r = some rule ∧
      calculate_reminder_time occ r tzOffset = some (reminderInstantSpec occ rule tzOffset) := by
  obtain ⟨rule, hrule⟩ := Option.isSome_iff_exists.mp (parseRule_isSome_of_validate r hval)
  refine ⟨rule, hrule, ?_⟩
  unfold calculate_reminder_time
  rw [local_reminder_minutes_eq, hrule]
  rfl

/-- Witness for C1 at the spec's example: rule DaysBefore(1), occurrence
2025-03-15, timezone UTC gives the instant 2025-03-14T09:00:00Z. -/
theorem reminder_instant_matches_spec_witness :
    (∃ rule : SpecRule, parseRule ⟨"days_before", "1".toList⟩ = some rule ∧
      calculate_reminder_time (daysFromCivil 2025 3 15) ⟨"days_before", "1".toList⟩
          (fun _ => 0) =
        some (reminderInstantSpec (daysFromCivil 2025 3 15) rule (fun _ => 0))) ∧
    calculate_reminder_time (daysFromCivil 2025 3 15) ⟨"days_before", "1".toList⟩
        (fun _ => 0) =
      some (daysFromCivil 2025 3 14 * 1440 + 540) :=
  ⟨reminder_instant_matches_spec (daysFromCivil 2025 3 15) (fun _ => 0)
      ⟨"days_before", "1".toList⟩ (by decide),
    by decide⟩

/-- C2: for every birthday string that parses and is valid against
`strptime('%m-%d')`'s default year 1900 (the validation `add_birthday`
performs), and every fixed today, `get_next_birthday_date` returns a date
with the same month and day, year equal to this year or next year, never
strictly before today, choosing this year exactly when this year's date is
not strictly before today. -/
theorem next_occurrence_correct (s : List Char) (m d : Int) (today : Date)
    (hp : parse_birthday s = some (m, d))
    (hv : isValidYMD 1900 m d = true) :
    ∃ r : Date, get_next_birthday_date s today = some r ∧
      r.month = m ∧ r.day = d ∧
      (r.year = today.year ∨ r.year = today.year + 1) ∧
      dateLt r today = false ∧
      (r.year = today.year ↔ dateLt ⟨today.year, m, d⟩ today = false) := by
  have hv1 : isValidYMD today.year m d = true := isValidYMD_of_1900 _ _ _ hv
  have hv2 : isValidYMD (today.year + 1) m d = true := isValidYMD_of_1900 _ _ _ hv
  unfold get_next_birthday_date
  rw [hp]
  cases hlt : dateLt ⟨today.year, m, d⟩ today with
  | false =>
    refine ⟨⟨today.year, m, d⟩, ?_, rfl, rfl, Or.inl rfl, hlt, ?_⟩
    · simp [hv1, hlt]
    · simp
  | true =>
    refine ⟨⟨today.year + 1, m, d⟩, ?_, rfl, rfl, Or.inr rfl, ?_, ?_⟩
    · simp [hv1, hlt, hv2]
    · simp only [dateLt, decide_eq_false_iff_not]
      intro hc
      rcases hc with hc | ⟨hc, _⟩ <;> omega
    · constructor
      · intro hy
        have : today.year + 1 = today.year := hy
        omega
      · intro hc; cases hc

/-- Witness for C2 at the spec's example: birthday 03-15 with today
2024-03-16 yields 2025-03-15. -/
theorem next_occurrence_correct_witness :
    (∃ r : Date, get_next_birthday_date "03-15".toList ⟨2024, 3, 16⟩ = some r ∧
      r.month = 3 ∧ r.day = 15 ∧
      (r.year = 2024 ∨ r.year = 2024 + 1) ∧
      dateLt r ⟨2024, 3, 16⟩ = false ∧
      (r.year = 2024 ↔ dateLt ⟨2024, 3, 15⟩ ⟨2024, 3, 16⟩ = false)) ∧
    get_next_birthday_date "03-15".toList ⟨2024, 3, 16⟩ = some ⟨2025, 3, 15⟩ :=
  ⟨next_occurrence_correct "03-15".toList 3 15 ⟨2024, 3, 16⟩ (by decide) (by decide),
    by decide⟩

/-- C9: `calculate_reminder_time` is timezone-monotonic: for a fixed
occurrence date and rule (hence a fixed local wall time `lm`), replacing the
timezone by one whose UTC offset at that wall time is larger by `delta`
shifts the returned UTC instant by exactly `-delta`. -/
theorem reminder_instant_timezone_shift (occ : Int) (r : Reminder)
    (tz1 tz2 : Int → Int) (delta lm : Int)
    (hl : local_reminder_minutes occ r = some lm)
    (hs : tz2 lm = tz1 lm + delta) :
    calculate_reminder_time occ r tz1 = some (lm - tz1 lm) ∧
    calculate_reminder_time occ r tz2 = some ((lm - tz1 lm) - delta) := by
  unfold calculate_reminder_time
  rw [hl]
  refine ⟨rfl, ?_⟩
  simp only [Option.map_some']
  rw [hs, sub_add_eq_sub_sub]

/-- Witness for C9: TimeOnDay 09:00 on day 0, shifting from UTC to a +60
minute offset moves the instant from 540 to 480 minutes. -/
theorem reminder_instant_timezone_shift_witness :
    calculate_reminder_time 0 ⟨"time_on_day", "09:00".toList⟩ (fun _ => 0) = some 540 ∧
    calculate_reminder_time 0 ⟨"time_on_day", "09:00".toList⟩ (fun _ => 60) = some 480 :=
  reminder_instant_timezone_shift 0 ⟨"time_on_day", "09:00".toList⟩
    (fun _ => 0) (fun _ => 60) 60 540 (by decide) (by decide)

/-- C8: the code is not total on leap-day birthdays.  02-29 is a real
birthday (valid in 2024), yet `get_next_birthday_date` raises (modelled
`none`) whenever the year it builds the date in is not a leap year: with
today 2024-03-01 the rolled-over `datetime(2025, 2, 29)` raises, and with
today 2025-01-01 already `datetime(2025, 2, 29)` raises. -/
theorem leap_day_birthday_raises :
    isValidYMD 2024 2 29 = true ∧
    parse_birthday "02-29".toList = some (2, 29) ∧
    get_next_birthday_date "02-29".toList ⟨2024, 3, 1⟩ = none ∧
    get_next_birthday_date "02-29".toList ⟨2025, 1, 1⟩ = none := by decide

/-- C3: two ticks 60 seconds apart that straddle the same reminder instant
BOTH fire under the code's window test `|now - instant| <= 60 s`: the same
(user, birthday, rule) unit for the same occurrence (2025-03-15, reminder
instant 2025-03-14T09:00Z) is logged as fired by both ticks. -/
theorem straddling_ticks_both_fire :
    check_birthdays ⟨2025, 3, 14⟩ ((daysFromCivil 2025 3 14 * 1440 + 540) * 60 - 30)
        [("u", ⟨[("Ana", "03-15".toList)], [⟨"days_before", "1".toList⟩], fun _ => 0⟩)] =
      ([⟨"u", "Ana", ⟨"days_before", "1".toList⟩, true, true⟩], false) ∧
    check_birthdays ⟨2025, 3, 14⟩ ((daysFromCivil 2025 3 14 * 1440 + 540) * 60 + 30)
        [("u", ⟨[("Ana", "03-15".toList)], [⟨"days_before", "1".toList⟩], fun _ => 0⟩)] =
      ([⟨"u", "Ana", ⟨"days_before", "1".toList⟩, true, true⟩], false) ∧
    ((daysFromCivil 2025 3 14 * 1440 + 540) * 60 + 30) -
        ((daysFromCivil 2025 3 14 * 1440 + 540) * 60 - 30) = 60 ∧
    (daysFromCivil 2025 3 14 * 1440 + 540) * 60 - 30 ≤
        (daysFromCivil 2025 3 14 * 1440 + 540) * 60 ∧
    (daysFromCivil 2025 3 14 * 1440 + 540) * 60 ≤
        (daysFromCivil 2025 3 14 * 1440 + 540) * 60 + 30 := by
  refine ⟨by decide, by decide, by omega, by omega, by omega⟩

/-- C5: in the confirmation flow, rejecting a pending endpoint clears the
pending entry and leaves the confirmed list untouched; confirming appends
exactly the pending endpoint plus the chat-relay (telegram) endpoint, the
latter only when not already present, and the telegram endpoint is present
afterwards; a confirm or reject with no pending entry changes nothing and
only reports the absence (`false`). -/
theorem confirmation_flow_correct (token chatId : String) (st : ConfirmState) :
    (∀ p, st.pending = some p →
      confirmNo st = (⟨none, st.confirmed⟩, true) ∧
      (confirmYes token chatId st).1.pending = none ∧
      (confirmYes token chatId st).1.confirmed =
        (st.confirmed ++ [p]) ++
          (if telegramEndpoint token chatId ∈ st.confirmed ++ [p] then []
            else [telegramEndpoint token chatId]) ∧
      telegramEndpoint token chatId ∈ (confirmYes token chatId st).1.confirmed) ∧
    (st.pending = none →
      confirmYes token chatId st = (st, false) ∧ confirmNo st = (st, false)) := by
  constructor
  · intro p hp
    simp only [confirmNo, confirmYes, hp]
    refine ⟨by trivial, by trivial, ?_, ?_⟩
    · by_cases hm : telegramEndpoint token chatId ∈ st.confirmed ++ [p] <;> simp [hm]
    · by_cases hm : telegramEndpoint token chatId ∈ st.confirmed ++ [p] <;> simp [hm]
  · intro hp
    simp [confirmYes, confirmNo, hp]

/-- Witness for C5 at a concrete state: pending endpoint `"mailto://x"`,
confirmed list `["a"]`, and the no-pending no-op. -/
theorem confirmation_flow_correct_witness :
    (confirmNo ⟨some "mailto://x", ["a"]⟩ = (⟨none, ["a"]⟩, true) ∧
      (confirmYes "tok" "42" ⟨some "mailto://x", ["a"]⟩).1.pending = none ∧
      (confirmYes "tok" "42" ⟨some "mailto://x", ["a"]⟩).1.confirmed =
        (["a"] ++ ["mailto://x"]) ++
          (if telegramEndpoint "tok" "42" ∈ ["a"] ++ ["mailto://x"] then []
            else [telegramEndpoint "tok" "42"]) ∧
      telegramEndpoint "tok" "42" ∈ (confirmYes "tok" "42" ⟨some "mailto://x", ["a"]⟩).1.confirmed) ∧
    (confirmYes "tok" "42" ⟨none, ["a"]⟩ = (⟨none, ["a"]⟩, false) ∧
      confirmNo ⟨none, ["a"]⟩ = (⟨none, ["a"]⟩, false)) :=
  ⟨(confirmation_flow_correct "tok" "42" ⟨some "mailto://x", ["a"]⟩).1 "mailto://x" rfl,
    (confirmation_flow_correct "tok" "42" ⟨none, ["a"]⟩).2 rfl⟩

/-- C6: `send_notification` returns the number of confirmed endpoints when
the batch delivery reports success and 0 otherwise; with no endpoints it
returns 0 without attempting delivery (second component `false`); a raised
delivery exception (`notifyResult = none`) is caught and becomes a 0 count —
the embedding is a total function, nothing propagates. -/
theorem dispatch_count_correct (endpoints : List String) (notifyResult : Option Bool) :
    (endpoints = [] → send_notification endpoints notifyResult = (0, false)) ∧
    (endpoints ≠ [] → notifyResult = some true →
      send_notification endpoints notifyResult = (endpoints.length, true)) ∧
    (notifyResult ≠ some true → (send_notification endpoints notifyResult).1 = 0) := by
  refine ⟨?_, ?_, ?_⟩
  · intro h; subst h; rfl
  · intro h hn
    subst hn
    cases endpoints with
    | nil => exact absurd rfl h
    | cons e es => rfl
  · intro h
    cases endpoints with
    | nil => rfl
    | cons e es =>
      cases notifyResult with
      | none => rfl
      | some b =>
        cases b with
        | false => rfl
        | true => exact absurd rfl h

/-- Witness for C6 at the spec's example: 3 confirmed endpoints with an
overall delivery failure give a count of 0, not a partial count; and with
overall success they give 3. -/
theorem dispatch_count_correct_witness :
    send_notification ["a", "b", "c"] (some false) = (0, true) ∧
    (send_notification ["a", "b", "c"] (some false)).1 = 0 ∧
    send_notification ["a", "b", "c"] (some true) = (3, true) :=
  ⟨by decide,
    (dispatch_count_correct ["a", "b", "c"] (some false)).2.2 (by decide),
    (dispatch_count_correct ["a", "b", "c"] (some true)).2.1 (by decide) rfl⟩

/-- The grammar `validate_reminder` actually enforces: an integer (of any
sign) for the count kinds, a 24h hh:mm for `time_on_day`, and a
day-count:hh:mm triple for `time_before`; unknown kinds are rejected. -/
lemma validate_reminder_grammar (r : Reminder) (h : validate_reminder r = true) :
    ((r.type = "minutes_before" ∨ r.type = "hours_before" ∨ r.type = "days_before") ∧
        ∃ n : Int, parsePythonInt r.value = some n) ∨
      (r.type = "time_on_day" ∧
        ∃ hh mm : Nat, parseHHMM r.value = some (hh, mm) ∧ hh ≤ 23 ∧ mm ≤ 59) ∨
      (r.type = "time_before" ∧
        ∃ a b c, splitOnChar ':' r.value = [a, b, c] ∧
          (∃ n : Int, parsePythonInt a = some n) ∧
          ∃ hh mm : Nat, parseHHMM (b ++ ':' :: c) = some (hh, mm) ∧ hh ≤ 23 ∧ mm ≤ 59) := by
  unfold validate_reminder at h
  by_cases h1 : r.type = "minutes_before" ∨ r.type = "hours_before" ∨ r.type = "days_before"
  · rw [if_pos h1] at h
    exact Or.inl ⟨h1, Option.isSome_iff_exists.mp h⟩
  · rw [if_neg h1] at h
    by_cases h4 : r.type = "time_on_day"
    · rw [if_pos h4] at h
      obtain ⟨⟨hh, mm⟩, hphm⟩ := Option.isSome_iff_exists.mp h
      obtain ⟨b1, b2⟩ := parseHHMM_bounds _ _ _ hphm
      exact Or.inr (Or.inl ⟨h4, hh, mm, hphm, b1, b2⟩)
    · rw [if_neg h4] at h
      by_cases h5 : r.type = "time_before"
      · rw [if_pos h5] at h
        cases hs : splitOnChar ':' r.value with
        | nil => rw [hs] at h; simp at h
        | cons a ps =>
          rw [hs] at h
          cases ps with
          | nil => simp at h
          | cons b qs =>
            cases qs with
            | nil => simp at h
            | cons c rs =>
              cases rs with
              | nil =>
                rw [Bool.and_eq_true] at h
                obtain ⟨ha, hb⟩ := h
                obtain ⟨n, hn⟩ := Option.isSome_iff_exists.mp ha
                obtain ⟨⟨hh, mm⟩, hphm⟩ := Option.isSome_iff_exists.mp hb
                obtain ⟨b1, b2⟩ := parseHHMM_bounds _ _ _ hphm
                exact Or.inr (Or.inr ⟨h5, ⟨a, b, c, ⟨rfl, ⟨n, hn⟩, ⟨hh, mm, ⟨hphm, b1, b2⟩⟩⟩⟩⟩)
              | cons _ _ => simp at h
      · rw [if_neg h5] at h
        simp at h

/-- C7 counterexample: `int(value)` accepts negative integers, so
`validate_reminder` passes and `add_reminder` stores a MinutesBefore rule
with the negative count -5, contradicting the claimed non-negativity. -/
theorem negative_reminder_count_stored :
    validate_reminder ⟨"minutes_before", "-5".toList⟩ = true ∧
    add_reminder [] ⟨"minutes_before", "-5".toList⟩ = [⟨"minutes_before", "-5".toList⟩] ∧
    parseRule ⟨"minutes_before", "-5".toList⟩ = some (SpecRule.minutesBefore (-5)) ∧
    (-5 : Int) < 0 := by decide

/-- C7 amended: every rule `add_reminder` stores satisfies its kind's
grammar, except that the integer counts may be any integer (negative
included): the count kinds carry a value parsing as a Python integer,
`time_on_day` a valid 24h hh:mm, `time_before` an integer day count plus a
valid 24h hh:mm; unknown kinds are never stored. -/
theorem stored_reminder_grammar (rs : List Reminder) (r0 r : Reminder)
    (hmem : r ∈ add_reminder rs r0) :
    r ∈ rs ∨
      (((r.type = "minutes_before" ∨ r.type = "hours_before" ∨ r.type = "days_before") ∧
          ∃ n : Int, parsePythonInt r.value = some n) ∨
        (r.type = "time_on_day" ∧
          ∃ hh mm : Nat, parseHHMM r.value = some (hh, mm) ∧ hh ≤ 23 ∧ mm ≤ 59) ∨
        (r.type = "time_before" ∧
          ∃ a b c, splitOnChar ':' r.value = [a, b, c] ∧
            (∃ n : Int, parsePythonInt a = some n) ∧
            ∃ hh mm : Nat, parseHHMM (b ++ ':' :: c) = some (hh, mm) ∧ hh ≤ 23 ∧ mm ≤ 59)) := by
  unfold add_reminder at hmem
  by_cases hv : validate_reminder r0 = true
  · rw [if_pos hv] at hmem
    rcases List.mem_append.mp hmem with hin | hin
    · exact Or.inl hin
    · have heq : r = r0 := List.mem_singleton.mp hin
      subst heq
      exact Or.inr (validate_reminder_grammar r hv)
  · rw [if_neg (by simpa using hv)] at hmem
    exact Or.inl hmem

/-- Witness for C7 (amended) at a concrete stored rule: `time_on_day 09:00`
added to the empty list. -/
theorem stored_reminder_grammar_witness :
    (⟨"time_on_day", "09:00".toList⟩ : Reminder) ∈ [] ∨
      ((((⟨"time_on_day", "09:00".toList⟩ : Reminder).type = "minutes_before" ∨
            (⟨"time_on_day", "09:00".toList⟩ : Reminder).type = "hours_before" ∨
            (⟨"time_on_day", "09:00".toList⟩ : Reminder).type = "days_before") ∧
          ∃ n : Int, parsePythonInt (⟨"time_on_day", "09:00".toList⟩ : Reminder).value = some n) ∨
        ((⟨"time_on_day", "09:00".toList⟩ : Reminder).type = "time_on_day" ∧
          ∃ hh mm : Nat,
            parseHHMM (⟨"time_on_day", "09:00".toList⟩ : Reminder).value = some (hh, mm) ∧
            hh ≤ 23 ∧ mm ≤ 59) ∨
        ((⟨"time_on_day", "09:00".toList⟩ : Reminder).type = "time_before" ∧
          ∃ a b c,
            splitOnChar ':' (⟨"time_on_day", "09:00".toList⟩ : Reminder).value = [a, b, c] ∧
            (∃ n : Int, parsePythonInt a = some n) ∧
            ∃ hh mm : Nat, parseHHMM (b ++ ':' :: c) = some (hh, mm) ∧ hh ≤ 23 ∧ mm ≤ 59)) :=
  stored_reminder_grammar [] ⟨"time_on_day", "09:00".toList⟩ ⟨"time_on_day", "09:00".toList⟩
    (by decide)

/-- C10: confirming a pending endpoint already on the confirmed list stores
it a second time (only the telegram endpoint's append is guarded by a
membership check), and the dispatch success count then counts both copies,
being the length of the duplicated list. -/
theorem duplicate_endpoint_double_counted (token chatId : String) (st : ConfirmState)
    (e : String) (hp : st.pending = some e) (he : e ∈ st.confirmed) :
    List.count e (confirmYes token chatId st).1.confirmed =
        List.count e st.confirmed + 1 ∧
    2 ≤ List.count e (confirmYes token chatId st).1.confirmed ∧
    send_notification (confirmYes token chatId st).1.confirmed (some true) =
        ((confirmYes token chatId st).1.confirmed.length, true) ∧
    st.confirmed.length + 1 ≤ (confirmYes token chatId st).1.confirmed.length := by
  have hcount : 1 ≤ List.count e st.confirmed := List.count_pos_iff.mpr he
  simp only [confirmYes, hp]
  by_cases hm : telegramEndpoint token chatId ∈ st.confirmed ++ [e]
  · simp only [if_pos hm]
    refine ⟨?_, ?_, ?_, ?_⟩
    · simp [List.count_append]
    · have h1 : List.count e (st.confirmed ++ [e]) = List.count e st.confirmed + 1 := by
        simp [List.count_append]
      omega
    · cases hcc : st.confirmed ++ [e] with
      | nil => simp at hcc
      | cons x xs => rfl
    · have hl : (st.confirmed ++ [e]).length = st.confirmed.length + 1 := by simp
      omega
  · simp only [if_neg hm]
    have hetg : e ≠ telegramEndpoint token chatId := by
      intro hc
      exact hm (hc ▸ List.mem_append_left _ he)
    have h0 : List.count e [telegramEndpoint token chatId] = 0 := by
      rw [List.count_eq_zero]
      simp only [List.mem_singleton]
      exact hetg
    refine ⟨?_, ?_, ?_, ?_⟩
    · simp [List.count_append, h0]
    · have h1 : List.count e ((st.confirmed ++ [e]) ++ [telegramEndpoint token chatId])
          = List.count e st.confirmed + 1 := by
        simp [List.count_append, h0]
      omega
    · cases hcc : (st.confirmed ++ [e]) ++ [telegramEndpoint token chatId] with
      | nil => simp at hcc
      | cons x xs => rfl
    · have hl : ((st.confirmed ++ [e]) ++ [telegramEndpoint token chatId]).length
          = st.confirmed.length + 2 := by simp
      omega

/-- Witness for C10: confirming pending `"u"` when `"u"` is already the
confirmed list's sole entry yields `"u"` twice, and dispatch counts both. -/
theorem duplicate_endpoint_double_counted_witness :
    List.count "u" (confirmYes "t" "c" ⟨some "u", ["u"]⟩).1.confirmed =
        List.count "u" ["u"] + 1 ∧
    2 ≤ List.count "u" (confirmYes "t" "c" ⟨some "u", ["u"]⟩).1.confirmed ∧
    send_notification (confirmYes "t" "c" ⟨some "u", ["u"]⟩).1.confirmed (some true) =
        ((confirmYes "t" "c" ⟨some "u", ["u"]⟩).1.confirmed.length, true) ∧
    (["u"] : List String).length + 1 ≤ (confirmYes "t" "c" ⟨some "u", ["u"]⟩).1.confirmed.length :=
  duplicate_endpoint_double_counted "t" "c" ⟨some "u", ["u"]⟩ "u" rfl (by decide)

/-- C4 counterexample: `get_next_birthday_date` is called outside the
per-rule `try`, so one birthday whose occurrence-date computation raises
(02-29 rolled into a non-leap year, today 2024-03-01) aborts the whole tick:
no unit at all is processed, although the second user's unit is processed
fine when that user is alone. -/
theorem occurrence_failure_aborts_tick :
    check_birthdays ⟨2024, 3, 1⟩ 0
        [("u1", ⟨[("Bob", "02-29".toList)], [⟨"days_before", "1".toList⟩], fun _ => 0⟩),
          ("u2", ⟨[("Ana", "03-15".toList)], [⟨"days_before", "1".toList⟩], fun _ => 0⟩)] =
      ([], true) ∧
    check_birthdays ⟨2024, 3, 1⟩ 0
        [("u2", ⟨[("Ana", "03-15".toList)], [⟨"days_before", "1".toList⟩], fun _ => 0⟩)] =
      ([⟨"u2", "Ana", ⟨"days_before", "1".toList⟩, true, false⟩], false) := by
  exact ⟨by decide, by decide⟩

/-- C4 (amended): when every occurrence-date computation the tick reaches
succeeds, the tick never aborts and every (user, birthday, rule) unit is
evaluated — in particular a failure inside the per-rule `try` (computing the
reminder instant, where dispatch also lives) only marks its own unit and
never prevents any other unit from being evaluated.  (The counterexample
shows the original claim's third failure class, occurrence-date computation,
does abort the tick.) -/
theorem tick_unit_isolation (today : Date) (nowSec : Int)
    (users : List (String × UserData)) (h : occurrencesOk today users = true) :
    (check_birthdays today nowSec users).2 = false ∧
    ∀ uid ud, (uid, ud) ∈ users →
      ud.birthdays.isEmpty = false → ud.reminders.isEmpty = false →
      ∀ nb ∈ ud.birthdays, ∀ r ∈ ud.reminders,
        ∃ u ∈ (check_birthdays today nowSec users).1,
          u.uid = uid ∧ u.name = nb.1 ∧ u.reminder = r := by
  induction users with
  | nil => exact ⟨rfl, by simp⟩
  | cons hd rest ih =>
    obtain ⟨uid0, ud0⟩ := hd
    rw [occurrencesOk, List.all_cons, Bool.and_eq_true] at h
    obtain ⟨hh, ht⟩ := h
    dsimp only at hh
    have ih2 := ih ht
    cases hskip : (ud0.birthdays.isEmpty || ud0.reminders.isEmpty) with
    | true =>
      have hres : check_birthdays today nowSec ((uid0, ud0) :: rest) =
          check_birthdays today nowSec rest := by
        simp only [check_birthdays]
        rw [hskip]
        simp
      rw [hres]
      refine ⟨ih2.1, ?_⟩
      intro uid ud hmem hbd hrm
      rcases List.mem_cons.mp hmem with heq | hm2
      · injection heq with e1 e2
        subst e1; subst e2
        rw [hbd, hrm] at hskip
        simp at hskip
      · exact ih2.2 uid ud hm2 hbd hrm
    | false =>
      rw [Bool.or_eq_false_iff] at hskip
      obtain ⟨ha, hb⟩ := hskip
      simp only [ha, hb, Bool.false_or] at hh
      have hforall : ∀ nb ∈ ud0.birthdays, (get_next_birthday_date nb.2 today).isSome = true := by
        simpa using hh
      obtain ⟨hab, hunits⟩ := processUserBirthdays_complete today nowSec uid0 ud0.timezone
        ud0.reminders ud0.birthdays hforall
      have hres : check_birthdays today nowSec ((uid0, ud0) :: rest) =
          ((processUserBirthdays today nowSec uid0 ud0.timezone ud0.reminders ud0.birthdays).1
              ++ (check_birthdays today nowSec rest).1,
            (check_birthdays today nowSec rest).2) := by
        simp only [check_birthdays]
        rw [ha, hb]
        simp [hab]
      rw [hres]
      refine ⟨ih2.1, ?_⟩
      intro uid ud hmem hbd hrm nb hnb r hr
      rcases List.mem_cons.mp hmem with heq | hm2
      · injection heq with e1 e2
        subst e1; subst e2
        obtain ⟨u, hu, hp3⟩ := hunits nb hnb r hr
        exact ⟨u, List.mem_append_left _ hu, hp3⟩
      · obtain ⟨u, hu, hp3⟩ := ih2.2 uid ud hm2 hbd hrm nb hnb r hr
        exact ⟨u, List.mem_append_right _ hu, hp3⟩

/-- Concrete two-user subscriber set for the C4 witness: the first user's
first reminder has an unknown kind, so its reminder-instant computation
fails inside the per-rule `try`; every other unit is healthy. -/
def isolationWitnessUsers : List (String × UserData) :=
  [("w1", ⟨[("Bob", "03-15".toList)],
      [⟨"foo", "1".toList⟩, ⟨"days_before", "1".toList⟩], fun _ => 0⟩),
    ("w2", ⟨[("Ana", "05-02".toList)], [⟨"time_on_day", "09:00".toList⟩], fun _ => 0⟩)]

/-- Witness for C4 (amended): on `isolationWitnessUsers` the tick does not
abort and every unit of both users is evaluated, although one unit's
reminder-instant computation fails. -/
theorem tick_unit_isolation_witness :
    (check_birthdays ⟨2024, 3, 1⟩ 0 isolationWitnessUsers).2 = false ∧
    ∀ uid ud, (uid, ud) ∈ isolationWitnessUsers →
      ud.birthdays.isEmpty = false → ud.reminders.isEmpty = false →
      ∀ nb ∈ ud.birthdays, ∀ r ∈ ud.reminders,
        ∃ u ∈ (check_birthdays ⟨2024, 3, 1⟩ 0 isolationWitnessUsers).1,
          u.uid = uid ∧ u.name = nb.1 ∧ u.reminder = r :=
  tick_unit_isolation ⟨2024, 3, 1⟩ 0 isolationWitnessUsers (by decide)

end BirthdayBot
